import Mathlib

/-!
Verification of the rolling-window absence calculator engine
(date parsing, CSV trip ingestion, calendar month arithmetic,
window overlap accounting, status classification).

The engine exists twice in the repository, as a Go CLI and as a set of
TypeScript Angular services; the two are kept in byte-for-byte agreement
by a differential test suite, so a single Lean embedding models both.
Calendar dates are modelled as (year, month, day) triples; a JS `Date`
at UTC midnight (respectively a Go `time.Time` at midnight) is in
bijection with such a triple, and all `getTime` differences and order
comparisons used by the code factor through the day number `toRD`
(days since 1970-01-01), so they are embedded as `toRD` arithmetic.
-/

namespace StayWithin

/-- A calendar date (year, month, day), the denotation of a JS `Date`
at UTC midnight / a Go `time.Time` at midnight. -/
structure Ymd where
  year : Int
  month : Int
  day : Int
deriving DecidableEq, Repr

/-- Gregorian leap-year rule, as used by JS `Date` and Go `time`. -/
def isLeapYear (y : Int) : Bool :=
  (y % 4 == 0 && y % 100 != 0) || y % 400 == 0

/-- Number of days in a month.  The sources obtain this as
`new Date(year, month, 0).getDate()` (TS) and
`time.Date(year, month+1, 0, ...).Day()` (Go); both denote the
standard Gregorian month length. -/
def daysInMonth (y m : Int) : Int :=
  if m = 2 then (if isLeapYear y then 29 else 28)
  else if m = 4 ∨ m = 6 ∨ m = 9 ∨ m = 11 then 30
  else 31

/-- Day number of a date: days since 1970-01-01 in the proleptic
Gregorian calendar.  This is `Date.getTime() / 86400000` for a UTC
midnight JS date, i.e. the quantity through which every time
comparison and difference in the engine factors. -/
def toRD (d : Ymd) : Int :=
  let a := (14 - d.month).ediv 12
  let y := d.year + 4800 - a
  let m := d.month + 12 * a - 3
  d.day + (153 * m + 2).ediv 5 + 365 * y + y.ediv 4 - y.ediv 100 + y.ediv 400
    - 32045 - 2440588

/-- A trip: one continuous absence (model `Trip` in TS, `Trip` in Go;
the Go struct has no notes field and the TS CSV parser never produces
one, so `notes` defaults to `none`). -/
structure Trip where
  start : Ymd
  «end» : Ymd
  days : Int
  notes : Option String := none
deriving DecidableEq, Repr

/-- Calculation configuration (`Config` in TS; the Go CLI's
`--window`/`--limit`/`--date` flags). -/
structure Config where
  windowMonths : Int
  absenceLimit : Int
  customDate : Option Ymd := none
deriving DecidableEq, Repr

/-! ## Month arithmetic (`addMonths`) -/

/-- First normalization loop of `addMonths`:
`while (month > 12) { month -= 12; year++; }`. -/
def normUp (month year : Int) : Int × Int :=
  if 12 < month then normUp (month - 12) (year + 1) else (month, year)
termination_by (month - 12).toNat
decreasing_by omega

/-- Second normalization loop of `addMonths`:
`while (month < 1) { month += 12; year--; }`. -/
def normDown (month year : Int) : Int × Int :=
  if month < 1 then normDown (month + 12) (year - 1) else (month, year)
termination_by (1 - month).toNat
decreasing_by omega

/-- `addMonths`: add a (possibly negative) number of months to a date,
normalizing the 1-based month into [1,12] by the two loops above and
clamping the day of month to the length of the resulting month
(TS `CalculatorService.addMonths`, Go `addMonths`). -/
def addMonths (d : Ymd) (months : Int) : Ymd :=
  let p1 := normUp (d.month + months) d.year
  let p2 := normDown p1.1 p1.2
  let maxDay := daysInMonth p2.2 p2.1
  ⟨p2.2, p2.1, min d.day maxDay⟩

/-- A closed form of `addMonths` (proved equal below); this version is
structural, so concrete instances can be evaluated by `decide`. -/
def addMonthsC (d : Ymd) (months : Int) : Ymd :=
  let y := d.year + (d.month + months - 1) / 12
  let m := (d.month + months - 1) % 12 + 1
  ⟨y, m, min d.day (daysInMonth y m)⟩

/-! ## Window accounting -/

/-- `calculateDaysInWindow` (TS `CalculatorService.calculateDaysInWindow`,
Go `calculateDaysInWindow`): for each trip overlapping the window, add
the inclusive day count of the clipped overlap. -/
def calculateDaysInWindow : List Trip → Ymd → Ymd → Int
  | [], _, _ => 0
  | trip :: rest, windowStart, windowEnd =>
    (if toRD trip.«end» < toRD windowStart ∨ toRD windowEnd < toRD trip.start then 0
     else
       let overlapStart := if toRD windowStart < toRD trip.start then trip.start else windowStart
       let overlapEnd := if toRD trip.«end» < toRD windowEnd then trip.«end» else windowEnd
       toRD overlapEnd - toRD overlapStart + 1)
    + calculateDaysInWindow rest windowStart windowEnd

/-- Per-trip analysis row (`AnalysisRow` in TS, the per-trip JSON/table
rows in Go). -/
structure AnalysisRow where
  trip : Trip
  daysInWindow : Int
  daysRemaining : Int
deriving DecidableEq, Repr

/-- `analyzeTrips` (TS `CalculatorService.analyzeTrips`; the Go loop in
`displayTripAnalysis`/`outputJSON`): one row per trip, window ending on
that trip's end date. -/
def analyzeTrips (trips : List Trip) (config : Config) : List AnalysisRow :=
  trips.map fun trip =>
    let windowStart := addMonths trip.«end» (-config.windowMonths)
    let daysInWindow := calculateDaysInWindow trips windowStart trip.«end»
    ⟨trip, daysInWindow, config.absenceLimit - daysInWindow⟩

inductive StatusLevel where
  | ok
  | caution
  | exceeded
deriving DecidableEq, Repr

/-- `StatusResult` record returned by `calculateStatus`. -/
structure StatusResult where
  targetDate : Ymd
  isCustomDate : Bool
  lastTripEnd : Ymd
  daysSinceLastTrip : Int
  windowStart : Ymd
  windowEnd : Ymd
  totalDaysOutside : Int
  daysRemaining : Int
  status : StatusLevel
deriving DecidableEq, Repr

/-- The caution threshold `min(30, ceil(absenceLimit * 0.15))`
(the literal 0.15 is modelled as the exact rational 15/100;
`(15*limit + 99).ediv 100` is the ceiling of `15*limit/100`). -/
def warningThreshold (limit : Int) : Int :=
  min 30 ((15 * limit + 99) / 100)

/-- `calculateStatus` (TS `CalculatorService.calculateStatus`, Go
`displayCurrentStatus`/`outputJSON`).  The ambient "today" is passed
explicitly.  The source dereferences `trips[trips.length - 1]` with no
guard; on an empty list the TS code reads `.end` of `undefined` and
throws a TypeError (Go would panic), modelled here as `none`. -/
def calculateStatus (trips : List Trip) (config : Config) (today : Ymd) :
    Option StatusResult :=
  let targetDate := config.customDate.getD today
  let windowStart := addMonths targetDate (-config.windowMonths)
  match trips.getLast? with
  | none => none
  | some lastTrip =>
    let daysSinceLastTrip := toRD targetDate - toRD lastTrip.«end»
    let totalDaysOutside := calculateDaysInWindow trips windowStart targetDate
    let daysRemaining := config.absenceLimit - totalDaysOutside
    let status : StatusLevel :=
      if daysRemaining < 0 then .exceeded
      else if daysRemaining < warningThreshold config.absenceLimit then .caution
      else .ok
    some
      { targetDate := targetDate
        isCustomDate := config.customDate.isSome
        lastTripEnd := lastTrip.«end»
        daysSinceLastTrip := daysSinceLastTrip
        windowStart := windowStart
        windowEnd := targetDate
        totalDaysOutside := totalDaysOutside
        daysRemaining := daysRemaining
        status := status }

/-! ## Date parser (`DateParserService`)

The TS service matches the trimmed input against ten anchored regexes in
priority order, extracts `(year, month, day)`, validates calendar
legality, and returns a UTC date.  The regexes are fixed-shape, so they
are embedded as structural matchers over `List Char`.  Each regex is
fully anchored (`^...$`), so a matcher consumes the entire character
list or fails. -/

/-- JS whitespace (the characters relevant to `trim` and `\s` here). -/
def isWsChar (c : Char) : Bool :=
  c == ' ' || c == '\t' || c == '\n' || c == '\r' || c == '\x0b' || c == '\x0c'

/-- `String.prototype.trim`. -/
def trimChars (s : List Char) : List Char :=
  ((s.dropWhile isWsChar).reverse.dropWhile isWsChar).reverse

/-- ASCII digit test (`\d`). -/
def isDigitChar (c : Char) : Bool :=
  48 ≤ c.toNat && c.toNat ≤ 57

/-- ASCII letter test (`[A-Za-z]`). -/
def isAlphaChar (c : Char) : Bool :=
  (65 ≤ c.toNat && c.toNat ≤ 90) || (97 ≤ c.toNat && c.toNat ≤ 122)

def digitVal (c : Char) : Nat := c.toNat - 48

def twoDigitVal (a b : Char) : Nat := 10 * digitVal a + digitVal b

def fourDigitVal (a b c d : Char) : Nat :=
  1000 * digitVal a + 100 * digitVal b + 10 * digitVal c + digitVal d

/-- `^(\d{2})sep(\d{2})sep(\d{4})$` with day-first extraction; returns
`(year, month, day)`.  Used for `dd.mm.yyyy`, `dd/mm/yyyy`, `dd-mm-yyyy`. -/
def matchDMY (sep : Char) : List Char → Option (Nat × Nat × Nat)
  | [d1, d2, s1, m1, m2, s2, y1, y2, y3, y4] =>
    if isDigitChar d1 && isDigitChar d2 && s1 == sep &&
        isDigitChar m1 && isDigitChar m2 && s2 == sep &&
        isDigitChar y1 && isDigitChar y2 && isDigitChar y3 && isDigitChar y4 then
      some (fourDigitVal y1 y2 y3 y4, twoDigitVal m1 m2, twoDigitVal d1 d2)
    else none
  | _ => none

/-- `^(\d{4})sep(\d{2})sep(\d{2})$`; returns `(year, month, day)`.
Used for `yyyy-mm-dd`, `yyyy/mm/dd`, `yyyy.mm.dd`. -/
def matchYMD (sep : Char) : List Char → Option (Nat × Nat × Nat)
  | [y1, y2, y3, y4, s1, m1, m2, s2, d1, d2] =>
    if isDigitChar y1 && isDigitChar y2 && isDigitChar y3 && isDigitChar y4 &&
        s1 == sep && isDigitChar m1 && isDigitChar m2 && s2 == sep &&
        isDigitChar d1 && isDigitChar d2 then
      some (fourDigitVal y1 y2 y3 y4, twoDigitVal m1 m2, twoDigitVal d1 d2)
    else none
  | _ => none

/-- `^(\d{2})sep(\d{2})sep(\d{4})$` with month-first (US) extraction;
returns `(year, month, day)`.  Used for `mm/dd/yyyy`, `mm-dd-yyyy`. -/
def matchMDY (sep : Char) : List Char → Option (Nat × Nat × Nat)
  | [m1, m2, s1, d1, d2, s2, y1, y2, y3, y4] =>
    if isDigitChar m1 && isDigitChar m2 && s1 == sep &&
        isDigitChar d1 && isDigitChar d2 && s2 == sep &&
        isDigitChar y1 && isDigitChar y2 && isDigitChar y3 && isDigitChar y4 then
      some (fourDigitVal y1 y2 y3 y4, twoDigitVal m1 m2, twoDigitVal d1 d2)
    else none
  | _ => none

/-- `MONTHS_SHORT` lookup on a lowercased 3-letter name. -/
def monthShortVal (s : List Char) : Option Nat :=
  if s = "jan".data then some 1 else if s = "feb".data then some 2
  else if s = "mar".data then some 3 else if s = "apr".data then some 4
  else if s = "may".data then some 5 else if s = "jun".data then some 6
  else if s = "jul".data then some 7 else if s = "aug".data then some 8
  else if s = "sep".data then some 9 else if s = "oct".data then some 10
  else if s = "nov".data then some 11 else if s = "dec".data then some 12
  else none

/-- `MONTHS_LONG` lookup on a lowercased full name. -/
def monthLongVal (s : List Char) : Option Nat :=
  if s = "january".data then some 1 else if s = "february".data then some 2
  else if s = "march".data then some 3 else if s = "april".data then some 4
  else if s = "may".data then some 5 else if s = "june".data then some 6
  else if s = "july".data then some 7 else if s = "august".data then some 8
  else if s = "september".data then some 9 else if s = "october".data then some 10
  else if s = "november".data then some 11 else if s = "december".data then some 12
  else none

/-- Consume exactly two digits (`^(\d{2})`). -/
def takeTwoDigits : List Char → Option (Nat × List Char)
  | a :: b :: rest =>
    if isDigitChar a && isDigitChar b then some (twoDigitVal a b, rest) else none
  | _ => none

/-- Consume `\s+` (at least one whitespace character, greedily; the
tokens that follow in the two regexes using it are letters/digits, so
greedy consumption coincides with regex matching). -/
def skipWs1 : List Char → Option (List Char)
  | c :: rest => if isWsChar c then some (rest.dropWhile isWsChar) else none
  | _ => none

/-- Consume a final `(\d{4})$`. -/
def takeYear4End : List Char → Option Nat
  | [y1, y2, y3, y4] =>
    if isDigitChar y1 && isDigitChar y2 && isDigitChar y3 && isDigitChar y4 then
      some (fourDigitVal y1 y2 y3 y4)
    else none
  | _ => none

/-- `^(\d{2})\s+([A-Za-z]{3})\s+(\d{4})$` (`dd Mon yyyy`), with the
case-insensitive `MONTHS_SHORT` lookup of the TS extractor. -/
def matchDMonY (s : List Char) : Option (Nat × Nat × Nat) :=
  match takeTwoDigits s with
  | none => none
  | some (day, r1) =>
    match skipWs1 r1 with
    | none => none
    | some r2 =>
      let name := r2.takeWhile isAlphaChar
      if name.length = 3 then
        match skipWs1 (r2.dropWhile isAlphaChar) with
        | none => none
        | some r3 =>
          match takeYear4End r3 with
          | none => none
          | some year =>
            match monthShortVal (name.map Char.toLower) with
            | none => none
            | some mo => some (year, mo, day)
      else none

/-- `^(\d{2})\s+([A-Za-z]+)\s+(\d{4})$` (`dd Month yyyy`), with the
case-insensitive `MONTHS_LONG` lookup of the TS extractor. -/
def matchDMonthY (s : List Char) : Option (Nat × Nat × Nat) :=
  match takeTwoDigits s with
  | none => none
  | some (day, r1) =>
    match skipWs1 r1 with
    | none => none
    | some r2 =>
      let name := r2.takeWhile isAlphaChar
      if name.length = 0 then none
      else
        match skipWs1 (r2.dropWhile isAlphaChar) with
        | none => none
        | some r3 =>
          match takeYear4End r3 with
          | none => none
          | some year =>
            match monthLongVal (name.map Char.toLower) with
            | none => none
            | some mo => some (year, mo, day)

/-- `DATE_FORMATS`: the ten (pattern, extractor) pairs in the source's
priority order (identical to the Go `dateFormats` list). -/
def dateFormats : List (List Char → Option (Nat × Nat × Nat)) :=
  [matchDMY '.', matchDMY '/', matchDMY '-',
   matchYMD '-', matchYMD '/', matchYMD '.',
   matchMDY '/', matchMDY '-',
   matchDMonY, matchDMonthY]

/-- `isValidDate(year, month, day)`.  The TS source checks this by a
`Date.UTC` round-trip; for the extracted values (month and day from two
digits, year from four digits) that round-trip holds exactly when the
month is in [1,12] and the day is in [1, daysInMonth]. -/
def isValidDate (y m d : Nat) : Bool :=
  decide (1 ≤ m ∧ m ≤ 12 ∧ 1 ≤ d ∧ (d : Int) ≤ daysInMonth (y : Int) (m : Int))

/-- The format loop of `parseDate`: first pattern whose extraction
exists and passes `isValidDate` wins; an invalid extraction falls
through to later patterns (`continue`). -/
def tryFormats : List (List Char → Option (Nat × Nat × Nat)) → List Char → Option Ymd
  | [], _ => none
  | f :: fs, s =>
    match f s with
    | some (y, m, d) =>
      if isValidDate y m d then some ⟨(y : Int), (m : Int), (d : Int)⟩
      else tryFormats fs s
    | none => tryFormats fs s

/-- `DateParserService.parseDate` on a character list: trim, reject the
empty string, then try the formats in order. -/
def parseDateChars (s : List Char) : Option Ymd :=
  let trimmed := trimChars s
  if trimmed.isEmpty then none else tryFormats dateFormats trimmed

/-- `DateParserService.parseDate`. -/
def parseDate (s : String) : Option Ymd := parseDateChars s.data

/-- Whether `needle` occurs at the start of `hay`. -/
def headMatches : List Char → List Char → Bool
  | [], _ => true
  | _ :: _, [] => false
  | a :: as, b :: bs => a == b && headMatches as bs

/-- Substring containment, the semantics of JS `String.includes`. -/
def occursIn (needle : List Char) : List Char → Bool
  | [] => needle.isEmpty
  | c :: rest => headMatches needle (c :: rest) || occursIn needle rest

/-- `HEADER_KEYWORDS`. -/
def headerKeywords : List (List Char) :=
  ["start".data, "end".data, "begin".data, "from".data, "to".data,
   "departure".data, "arrival".data, "date".data]

/-- `DateParserService.isHeaderRow`: fewer than two cells is not a
header; a keyword occurring in either of the first two cells (trimmed,
lowercased) is; otherwise the row is a header exactly when either of
the first two cells fails to parse as a date. -/
def isHeaderRow : List (List Char) → Bool
  | a :: b :: _ =>
    let firstCell := (trimChars a).map Char.toLower
    let secondCell := (trimChars b).map Char.toLower
    if headerKeywords.any (fun k => occursIn k firstCell || occursIn k secondCell) then
      true
    else
      (parseDateChars a).isNone || (parseDateChars b).isNone
  | _ => false

/-! ## Trip parser (`CsvParserService.parseTripsFromText`) -/

/-- First phase of splitting on `/\r?\n/`: normalize each `"\r\n"`
pair to `"\n"`; a lone `'\r'` is ordinary text. -/
def normNewlines : List Char → List Char
  | c1 :: c2 :: rest =>
    if c1 = '\r' ∧ c2 = '\n' then '\n' :: normNewlines rest
    else c1 :: normNewlines (c2 :: rest)
  | l => l

/-- Second phase: split at each `'\n'`. -/
def splitOnNl (acc : List Char) : List Char → List (List Char)
  | [] => [acc.reverse]
  | c :: rest =>
    if c = '\n' then acc.reverse :: splitOnNl [] rest
    else splitOnNl (c :: acc) rest

/-- Split on `/\r?\n/`: a line break is `"\r\n"` or `"\n"`. -/
def splitLines (s : List Char) : List (List Char) := splitOnNl [] (normNewlines s)

/-- Split a line on `/[,\t]/` (every comma or tab is a separator). -/
def splitCellsAux (acc : List Char) : List Char → List (List Char)
  | [] => [acc.reverse]
  | c :: rest =>
    if c = ',' ∨ c = '\t' then acc.reverse :: splitCellsAux [] rest
    else splitCellsAux (c :: acc) rest

/-- Cells of one line: split on comma/tab, then trim each cell
(`line.split(/[,\t]/).map(c => c.trim())`). -/
def splitCells (line : List Char) : List (List Char) :=
  (splitCellsAux [] line).map trimChars

/-- Build the trip of one data row from its first two (already trimmed)
cells: both must parse as dates; `days` is the inclusive day count
`floor((end - start) / msPerDay) + 1`, which is exact on UTC midnights.
The parser never populates `notes`. -/
def rowTrip (a b : List Char) : Option Trip :=
  match parseDateChars a, parseDateChars b with
  | some s, some e => some ⟨s, e, toRD e - toRD s + 1, none⟩
  | _, _ => none

/-- The line loop of `parseTripsFromText`.  `firstRow` is true until
the first line with at least two cells has been seen; that line (and
only that line) undergoes the header check. -/
def parseLines : List (List Char) → Bool → List Trip
  | [], _ => []
  | l :: ls, firstRow =>
    match splitCells l with
    | a :: b :: rest =>
      if firstRow && isHeaderRow (a :: b :: rest) then parseLines ls false
      else
        match rowTrip a b with
        | some t => t :: parseLines ls false
        | none => parseLines ls false
    | _ => parseLines ls firstRow

/-- Sort key: ascending trip end date
(`trips.sort((a, b) => a.end.getTime() - b.end.getTime())`). -/
def endBefore (a b : Trip) : Prop := toRD a.«end» ≤ toRD b.«end»

instance : DecidableRel endBefore := fun a b => by
  unfold endBefore
  infer_instance

/-- `CsvParserService.parseTripsFromText`: split into lines, drop blank
lines, run the line loop, and stable-sort by end date (the JS engine's
stable `Array.sort` is modelled by insertion sort, which produces the
same list as any stable sort on the same key). -/
def parseTripsFromText (text : String) : List Trip :=
  let lines := (splitLines text.data).filter (fun l => !(trimChars l).isEmpty)
  if lines.isEmpty then []
  else List.insertionSort endBefore (parseLines lines true)

/-- Whether the line loop, started with `firstRow = true` on these
lines, would skip its first ≥2-cell line as a header. -/
def wouldSkipHeader : List (List Char) → Bool
  | [] => false
  | l :: ls =>
    match splitCells l with
    | _ :: _ :: _ => isHeaderRow (splitCells l)
    | _ => wouldSkipHeader ls

/-- Calendar validity of a `Ymd`, the post-condition `isValidDate`
establishes. -/
def validYmd (d : Ymd) : Prop :=
  1 ≤ d.month ∧ d.month ≤ 12 ∧ 1 ≤ d.day ∧ d.day ≤ daysInMonth d.year d.month

instance : DecidablePred validYmd := fun d => by
  unfold validYmd
  infer_instance

/-- The spec's formula for one trip's contribution to a window:
`(min(trip.end, windowEnd) - max(trip.start, windowStart) in days) + 1`. -/
def overlapContribution (t : Trip) (ws we : Ymd) : Int :=
  min (toRD t.«end») (toRD we) - max (toRD t.start) (toRD ws) + 1

/-- The trips that overlap a window: `trip.end >= windowStart` and
`trip.start <= windowEnd`. -/
def overlapsWindow (t : Trip) (ws we : Ymd) : Bool :=
  decide (toRD ws ≤ toRD t.«end» ∧ toRD t.start ≤ toRD we)

/-! ## Helper lemmas -/

theorem normUp_spec (m y : Int) (h : 1 ≤ m) :
    normUp m y = ((m - 1) % 12 + 1, y + (m - 1) / 12) := by
  induction m, y using normUp.induct with
  | case1 m y h12 ih =>
    rw [normUp, if_pos h12, ih (by omega), Prod.mk.injEq]
    constructor <;> omega
  | case2 m y h12 =>
    rw [normUp, if_neg h12, Prod.mk.injEq]
    constructor <;> omega

theorem normDown_spec (m y : Int) (h : m ≤ 12) :
    normDown m y = ((m - 1) % 12 + 1, y + (m - 1) / 12) := by
  induction m, y using normDown.induct with
  | case1 m y h1 ih =>
    rw [normDown, if_pos h1, ih (by omega), Prod.mk.injEq]
    constructor <;> omega
  | case2 m y h1 =>
    rw [normDown, if_neg h1, Prod.mk.injEq]
    constructor <;> omega

/-- The two normalization loops of `addMonths` compute the closed form
`addMonthsC`; since the latter is structural, concrete `addMonths`
values can be computed by rewriting with this lemma. -/
theorem addMonths_eq_c : addMonths = addMonthsC := by
  funext d months
  simp only [addMonths, addMonthsC]
  by_cases h : 1 ≤ d.month + months
  · rw [normUp_spec _ _ h]
    dsimp only
    rw [normDown, if_neg (by omega)]
  · rw [normUp, if_neg (by omega)]
    dsimp only
    rw [normDown_spec _ _ (by omega)]

/-! ## Claims -/

/-- C1: for every list of trips and every window `[windowStart,
windowEnd]` with `windowStart <= windowEnd`, `calculateDaysInWindow`
returns the sum, over exactly those trips with `trip.end >= windowStart`
and `trip.start <= windowEnd`, of
`(min(trip.end, windowEnd) - max(trip.start, windowStart) in days) + 1`,
with no deduplication between overlapping trips; for the trips
2023-03-15..2023-03-20 and 2023-06-10..2023-06-15 and the window
[2023-01-01, 2023-12-31] it returns 12, and the trip
2022-12-25..2023-01-05 clipped to that window contributes exactly 5. -/
theorem claim1_window_sum :
    (∀ (trips : List Trip) (ws we : Ymd), toRD ws ≤ toRD we →
      calculateDaysInWindow trips ws we =
        ((trips.filter (fun t => overlapsWindow t ws we)).map
          (fun t => overlapContribution t ws we)).sum) ∧
    calculateDaysInWindow
      [⟨⟨2023, 3, 15⟩, ⟨2023, 3, 20⟩, 6, none⟩, ⟨⟨2023, 6, 10⟩, ⟨2023, 6, 15⟩, 6, none⟩]
      ⟨2023, 1, 1⟩ ⟨2023, 12, 31⟩ = 12 ∧
    calculateDaysInWindow [⟨⟨2022, 12, 25⟩, ⟨2023, 1, 5⟩, 12, none⟩]
      ⟨2023, 1, 1⟩ ⟨2023, 12, 31⟩ = 5 := by
  refine ⟨?_, by decide, by decide⟩
  intro trips ws we _hw
  induction trips with
  | nil => rfl
  | cons t rest ih =>
    rw [calculateDaysInWindow, ih]
    by_cases hov : toRD ws ≤ toRD t.«end» ∧ toRD t.start ≤ toRD we
    · rw [List.filter_cons_of_pos (by simpa [overlapsWindow] using hov), List.map_cons,
        List.sum_cons, if_neg (by omega)]
      simp only [apply_ite toRD, overlapContribution]
      split_ifs <;> omega
    · rw [List.filter_cons_of_neg (by simpa [overlapsWindow] using hov), if_pos (by omega)]
      omega

theorem claim1_window_sum_witness :
    calculateDaysInWindow [⟨⟨2023, 3, 15⟩, ⟨2023, 3, 20⟩, 6, none⟩]
      ⟨2023, 1, 1⟩ ⟨2023, 12, 31⟩ =
      ((([⟨⟨2023, 3, 15⟩, ⟨2023, 3, 20⟩, 6, none⟩] : List Trip).filter
        (fun t => overlapsWindow t ⟨2023, 1, 1⟩ ⟨2023, 12, 31⟩)).map
        (fun t => overlapContribution t ⟨2023, 1, 1⟩ ⟨2023, 12, 31⟩)).sum :=
  claim1_window_sum.1 _ _ _ (by decide)

/-- C2: `addMonths(d, m)` adds `m` to the 1-based month, normalizes the
month into [1,12] while adjusting the year (equivalently: the closed
form `addMonthsC` with floor division by 12), and clamps the day to the
length of the resulting month; in particular
`addMonths(2023-01-31, 1) = 2023-02-28`,
`addMonths(2024-02-29, -1) = 2024-01-29`,
`addMonths(2023-11-15, 3) = 2024-02-15`, and `addMonths(d, 0) = d` for
every valid calendar date `d`. -/
theorem claim2_addMonths :
    (∀ (d : Ymd) (m : Int), addMonths d m = addMonthsC d m) ∧
    (∀ d : Ymd, validYmd d → addMonths d 0 = d) ∧
    addMonths ⟨2023, 1, 31⟩ 1 = ⟨2023, 2, 28⟩ ∧
    addMonths ⟨2024, 2, 29⟩ (-1) = ⟨2024, 1, 29⟩ ∧
    addMonths ⟨2023, 11, 15⟩ 3 = ⟨2024, 2, 15⟩ := by
  refine ⟨fun d m => congrFun (congrFun addMonths_eq_c d) m, ?_,
    by rw [addMonths_eq_c]; decide, by rw [addMonths_eq_c]; decide,
    by rw [addMonths_eq_c]; decide⟩
  intro d hv
  obtain ⟨yr, mo, dy⟩ := d
  simp only [validYmd] at hv
  obtain ⟨h1, h2, h3, h4⟩ := hv
  rw [addMonths_eq_c]
  simp only [addMonthsC, Ymd.mk.injEq]
  have heq : (mo + 0 - 1) % 12 + 1 = mo := by omega
  have hz : (mo + 0 - 1) / 12 = 0 := by omega
  rw [heq, hz, add_zero]
  exact ⟨rfl, rfl, by omega⟩

theorem claim2_addMonths_witness :
    addMonths ⟨2020, 6, 15⟩ 7 = addMonthsC ⟨2020, 6, 15⟩ 7 ∧
    addMonths ⟨2021, 3, 3⟩ 0 = ⟨2021, 3, 3⟩ :=
  ⟨claim2_addMonths.1 ⟨2020, 6, 15⟩ 7, claim2_addMonths.2.1 ⟨2021, 3, 3⟩ (by decide)⟩

/-- C3: on every non-empty trip list, `calculateStatus` classifies with
`warningThreshold = min(30, ceil(absenceLimit * 0.15))` and precedence
`daysRemaining < 0 → exceeded`, else `< warningThreshold → caution`,
else `ok`; for `absenceLimit = 180` the threshold is 27, and concrete
scenarios reaching `daysRemaining` of -1, 26 and 27 yield `exceeded`,
`caution` and `ok` respectively. -/
theorem claim3_status_classification :
    (∀ (trips : List Trip) (config : Config) (today : Ymd) (r : StatusResult),
      calculateStatus trips config today = some r →
      r.status =
        (if r.daysRemaining < 0 then StatusLevel.exceeded
         else if r.daysRemaining < min 30 ((15 * config.absenceLimit + 99) / 100) then
           StatusLevel.caution
         else StatusLevel.ok)) ∧
    warningThreshold 180 = 27 ∧
    (calculateStatus [⟨⟨2023, 1, 1⟩, ⟨2023, 6, 30⟩, 181, none⟩]
        ⟨12, 180, some ⟨2023, 12, 31⟩⟩ ⟨2023, 12, 31⟩).map
      (fun r => (r.daysRemaining, r.status)) = some (-1, StatusLevel.exceeded) ∧
    (calculateStatus [⟨⟨2023, 1, 1⟩, ⟨2023, 6, 3⟩, 154, none⟩]
        ⟨12, 180, some ⟨2023, 12, 31⟩⟩ ⟨2023, 12, 31⟩).map
      (fun r => (r.daysRemaining, r.status)) = some (26, StatusLevel.caution) ∧
    (calculateStatus [⟨⟨2023, 1, 1⟩, ⟨2023, 6, 2⟩, 153, none⟩]
        ⟨12, 180, some ⟨2023, 12, 31⟩⟩ ⟨2023, 12, 31⟩).map
      (fun r => (r.daysRemaining, r.status)) = some (27, StatusLevel.ok) := by
  refine ⟨?_, by decide,
    by simp only [calculateStatus, addMonths_eq_c]; decide,
    by simp only [calculateStatus, addMonths_eq_c]; decide,
    by simp only [calculateStatus, addMonths_eq_c]; decide⟩
  intro trips config today r h
  rw [calculateStatus] at h
  cases hl : trips.getLast? with
  | none => rw [hl] at h; exact absurd h (by simp)
  | some lastTrip =>
    rw [hl] at h
    simp only [Option.some.injEq] at h
    subst h
    simp only [warningThreshold]

theorem claim3_status_classification_witness :
    StatusResult.status
      { targetDate := ⟨2023, 12, 31⟩, isCustomDate := true,
        lastTripEnd := ⟨2023, 6, 2⟩, daysSinceLastTrip := 212,
        windowStart := ⟨2022, 12, 31⟩, windowEnd := ⟨2023, 12, 31⟩,
        totalDaysOutside := 153, daysRemaining := 27, status := StatusLevel.ok } =
      (if (27 : Int) < 0 then StatusLevel.exceeded
       else if (27 : Int) < min 30 ((15 * (180 : Int) + 99) / 100) then StatusLevel.caution
       else StatusLevel.ok) :=
  claim3_status_classification.1 [⟨⟨2023, 1, 1⟩, ⟨2023, 6, 2⟩, 153, none⟩]
    ⟨12, 180, some ⟨2023, 12, 31⟩⟩ ⟨2023, 12, 31⟩ _
    (by simp only [calculateStatus, addMonths_eq_c]; decide)

/-- C4: on an empty trip list, `analyzeTrips` returns the empty list;
`calculateStatus`, by contrast, has no defined result: the source
dereferences the non-existent last trip (`trips[trips.length - 1]`) with
no guard, which is modelled as `none` — it does NOT raise the explicit
"no trips to evaluate" error the claim describes (no such error exists
anywhere in the code; the TS code throws a TypeError on reading `.end`
of `undefined`, and the only guards live in the callers). -/
theorem claim4_empty_trips :
    (∀ config : Config, analyzeTrips [] config = []) ∧
    (∀ (config : Config) (today : Ymd), calculateStatus [] config today = none) :=
  ⟨fun _ => rfl, fun _ _ => rfl⟩

/-! ## Character-level helper lemmas for the date parser -/

theorem digit_not_ws {c : Char} (h : isDigitChar c = true) : isWsChar c = false := by
  simp only [isDigitChar, Bool.and_eq_true, decide_eq_true_eq] at h
  by_contra hne
  rw [Bool.not_eq_false] at hne
  simp only [isWsChar, Bool.or_eq_true, beq_iff_eq] at hne
  rcases hne with ((((h1 | h1) | h1) | h1) | h1) | h1 <;> subst h1 <;>
    exact absurd h (by decide)

theorem digit_beq_ne {c d : Char} (h : isDigitChar c = true)
    (hd : isDigitChar d = false) : (c == d) = false := by
  rw [beq_eq_false_iff_ne]
  rintro rfl
  rw [h] at hd
  exact absurd hd (by decide)

/-- General day-first slash parse: a `nn/nn/nnnn` string whose day-first
reading is a legal calendar date parses day-first (pattern 2,
`dd/mm/yyyy`, fires before the US pattern 7). -/
theorem parse_slash_dayfirst (c1 c2 c3 c4 y1 y2 y3 y4 : Char)
    (h1 : isDigitChar c1 = true) (h2 : isDigitChar c2 = true)
    (h3 : isDigitChar c3 = true) (h4 : isDigitChar c4 = true)
    (h5 : isDigitChar y1 = true) (h6 : isDigitChar y2 = true)
    (h7 : isDigitChar y3 = true) (h8 : isDigitChar y4 = true)
    (hv : isValidDate (fourDigitVal y1 y2 y3 y4) (twoDigitVal c3 c4) (twoDigitVal c1 c2) = true) :
    parseDateChars [c1, c2, '/', c3, c4, '/', y1, y2, y3, y4] =
      some ⟨fourDigitVal y1 y2 y3 y4, twoDigitVal c3 c4, twoDigitVal c1 c2⟩ := by
  simp [parseDateChars, trimChars, List.dropWhile_cons, digit_not_ws h1, digit_not_ws h8,
    tryFormats, dateFormats, matchDMY, matchYMD, matchMDY, matchDMonY, matchDMonthY,
    takeTwoDigits, skipWs1, h1, h2, h3, h4, h5, h6, h7, h8, hv,
    digit_beq_ne h1 (by decide : isDigitChar '.' = false),
    digit_beq_ne h2 (by decide : isDigitChar '.' = false),
    (by decide : isDigitChar '/' = false),
    (by decide : isWsChar '/' = false),
    (by decide : (('/' : Char) == '.') = false),
    (by decide : (('/' : Char) == '-') = false)]

/-- General day-first dash parse: a `nn-nn-nnnn` string whose day-first
reading is a legal calendar date parses day-first (pattern 3,
`dd-mm-yyyy`, fires before the US pattern 8). -/
theorem parse_dash_dayfirst (c1 c2 c3 c4 y1 y2 y3 y4 : Char)
    (h1 : isDigitChar c1 = true) (h2 : isDigitChar c2 = true)
    (h3 : isDigitChar c3 = true) (h4 : isDigitChar c4 = true)
    (h5 : isDigitChar y1 = true) (h6 : isDigitChar y2 = true)
    (h7 : isDigitChar y3 = true) (h8 : isDigitChar y4 = true)
    (hv : isValidDate (fourDigitVal y1 y2 y3 y4) (twoDigitVal c3 c4) (twoDigitVal c1 c2) = true) :
    parseDateChars [c1, c2, '-', c3, c4, '-', y1, y2, y3, y4] =
      some ⟨fourDigitVal y1 y2 y3 y4, twoDigitVal c3 c4, twoDigitVal c1 c2⟩ := by
  simp [parseDateChars, trimChars, List.dropWhile_cons, digit_not_ws h1, digit_not_ws h8,
    tryFormats, dateFormats, matchDMY, matchYMD, matchMDY, matchDMonY, matchDMonthY,
    takeTwoDigits, skipWs1, h1, h2, h3, h4, h5, h6, h7, h8, hv,
    digit_beq_ne h1 (by decide : isDigitChar '.' = false),
    digit_beq_ne h2 (by decide : isDigitChar '.' = false),
    (by decide : isDigitChar '-' = false),
    (by decide : isWsChar '-' = false),
    (by decide : (('-' : Char) == '.') = false),
    (by decide : (('-' : Char) == '/') = false)]

/-- General US fallthrough for slashes: if the day-first reading of
`nn/nn/nnnn` is calendar-invalid but the month-first reading is valid,
pattern 2 falls through (`continue`) and the US pattern 7 returns the
month-first date. -/
theorem parse_slash_fallthrough (c1 c2 c3 c4 y1 y2 y3 y4 : Char)
    (h1 : isDigitChar c1 = true) (h2 : isDigitChar c2 = true)
    (h3 : isDigitChar c3 = true) (h4 : isDigitChar c4 = true)
    (h5 : isDigitChar y1 = true) (h6 : isDigitChar y2 = true)
    (h7 : isDigitChar y3 = true) (h8 : isDigitChar y4 = true)
    (hv1 : isValidDate (fourDigitVal y1 y2 y3 y4) (twoDigitVal c3 c4) (twoDigitVal c1 c2) = false)
    (hv2 : isValidDate (fourDigitVal y1 y2 y3 y4) (twoDigitVal c1 c2) (twoDigitVal c3 c4) = true) :
    parseDateChars [c1, c2, '/', c3, c4, '/', y1, y2, y3, y4] =
      some ⟨fourDigitVal y1 y2 y3 y4, twoDigitVal c1 c2, twoDigitVal c3 c4⟩ := by
  simp [parseDateChars, trimChars, List.dropWhile_cons, digit_not_ws h1, digit_not_ws h8,
    tryFormats, dateFormats, matchDMY, matchYMD, matchMDY, matchDMonY, matchDMonthY,
    takeTwoDigits, skipWs1, h1, h2, h3, h4, h5, h6, h7, h8, hv1, hv2,
    digit_beq_ne h1 (by decide : isDigitChar '.' = false),
    digit_beq_ne h2 (by decide : isDigitChar '.' = false),
    (by decide : isDigitChar '/' = false),
    (by decide : isWsChar '/' = false),
    (by decide : (('/' : Char) == '.') = false),
    (by decide : (('/' : Char) == '-') = false)]

/-- General US fallthrough for dashes: like `parse_slash_fallthrough`
with patterns 3 and 8. -/
theorem parse_dash_fallthrough (c1 c2 c3 c4 y1 y2 y3 y4 : Char)
    (h1 : isDigitChar c1 = true) (h2 : isDigitChar c2 = true)
    (h3 : isDigitChar c3 = true) (h4 : isDigitChar c4 = true)
    (h5 : isDigitChar y1 = true) (h6 : isDigitChar y2 = true)
    (h7 : isDigitChar y3 = true) (h8 : isDigitChar y4 = true)
    (hv1 : isValidDate (fourDigitVal y1 y2 y3 y4) (twoDigitVal c3 c4) (twoDigitVal c1 c2) = false)
    (hv2 : isValidDate (fourDigitVal y1 y2 y3 y4) (twoDigitVal c1 c2) (twoDigitVal c3 c4) = true) :
    parseDateChars [c1, c2, '-', c3, c4, '-', y1, y2, y3, y4] =
      some ⟨fourDigitVal y1 y2 y3 y4, twoDigitVal c1 c2, twoDigitVal c3 c4⟩ := by
  simp [parseDateChars, trimChars, List.dropWhile_cons, digit_not_ws h1, digit_not_ws h8,
    tryFormats, dateFormats, matchDMY, matchYMD, matchMDY, matchDMonY, matchDMonthY,
    takeTwoDigits, skipWs1, h1, h2, h3, h4, h5, h6, h7, h8, hv1, hv2,
    digit_beq_ne h1 (by decide : isDigitChar '.' = false),
    digit_beq_ne h2 (by decide : isDigitChar '.' = false),
    (by decide : isDigitChar '-' = false),
    (by decide : isWsChar '-' = false),
    (by decide : (('-' : Char) == '.') = false),
    (by decide : (('-' : Char) == '/') = false)]

/-- Soundness of the format loop: any returned date passed the
`isValidDate` guard. -/
theorem tryFormats_sound (fs : List (List Char → Option (Nat × Nat × Nat)))
    (s : List Char) (d : Ymd) (h : tryFormats fs s = some d) : validYmd d := by
  induction fs with
  | nil => exact absurd h (by simp [tryFormats])
  | cons f fs ih =>
    rw [tryFormats] at h
    cases hf : f s with
    | none => rw [hf] at h; exact ih h
    | some ymd =>
      rw [hf] at h
      obtain ⟨y, m, dd⟩ := ymd
      dsimp only at h
      by_cases hv : isValidDate y m dd = true
      · rw [if_pos hv, Option.some.injEq] at h
        subst h
        simp only [isValidDate, decide_eq_true_eq] at hv
        obtain ⟨a1, a2, a3, a4⟩ := hv
        exact ⟨by simp; exact_mod_cast a1, by simp; exact_mod_cast a2,
          by simp; exact_mod_cast a3, a4⟩
      · rw [if_neg hv] at h
        exact ih h

/-- Soundness of `parseDateChars`: it only returns legal calendar
dates. -/
theorem parseDateChars_sound (s : List Char) (d : Ymd)
    (h : parseDateChars s = some d) : validYmd d := by
  rw [parseDateChars] at h
  by_cases he : (trimChars s).isEmpty
  · rw [if_pos he] at h; exact absurd h (by simp)
  · rw [if_neg he] at h
    exact tryFormats_sound _ _ _ h

/-- C5: `parseDate` tries the ten patterns in fixed priority order with
first match winning, so every ambiguous slash-separated `nn/nn/nnnn`
date whose day-first reading is legal is interpreted day-first
(pattern 2 `dd/mm/yyyy` precedes pattern 7 `mm/dd/yyyy`); in particular
`parseDate("05/12/2023")` is 5 December 2023, never 12 May 2023. -/
theorem claim5_ambiguous_dayfirst :
    (∀ c1 c2 c3 c4 y1 y2 y3 y4 : Char,
      isDigitChar c1 = true → isDigitChar c2 = true →
      isDigitChar c3 = true → isDigitChar c4 = true →
      isDigitChar y1 = true → isDigitChar y2 = true →
      isDigitChar y3 = true → isDigitChar y4 = true →
      isValidDate (fourDigitVal y1 y2 y3 y4) (twoDigitVal c3 c4) (twoDigitVal c1 c2) = true →
      parseDate (String.mk [c1, c2, '/', c3, c4, '/', y1, y2, y3, y4]) =
        some ⟨(fourDigitVal y1 y2 y3 y4 : Int), (twoDigitVal c3 c4 : Int),
          (twoDigitVal c1 c2 : Int)⟩) ∧
    parseDate "05/12/2023" = some ⟨2023, 12, 5⟩ ∧
    parseDate "05/12/2023" ≠ some ⟨2023, 5, 12⟩ :=
  ⟨fun c1 c2 c3 c4 y1 y2 y3 y4 h1 h2 h3 h4 h5 h6 h7 h8 hv =>
    parse_slash_dayfirst c1 c2 c3 c4 y1 y2 y3 y4 h1 h2 h3 h4 h5 h6 h7 h8 hv,
   by decide, by decide⟩

theorem claim5_ambiguous_dayfirst_witness :
    parseDate (String.mk ['0', '7', '/', '1', '1', '/', '2', '0', '2', '3']) =
      some ⟨(fourDigitVal '2' '0' '2' '3' : Int), (twoDigitVal '1' '1' : Int),
        (twoDigitVal '0' '7' : Int)⟩ :=
  claim5_ambiguous_dayfirst.1 '0' '7' '1' '1' '2' '0' '2' '3' (by decide) (by decide)
    (by decide) (by decide) (by decide) (by decide) (by decide) (by decide) (by decide)

/-- C6: `parseDate` returns a date only when the whole trimmed input
matches a pattern and denotes a legal calendar date (every returned
date satisfies `validYmd`, i.e. month in [1,12] and day in
[1, daysInMonth], with leap years handled); `"30.02.2023"` and
`"29.02.2023"` are no-match, `"29.02.2024"` succeeds, and the anchored
patterns reject `"2023-05-25extra"`.  No-match is the `none` sentinel,
not an exception. -/
theorem claim6_validation :
    (∀ (s : List Char) (d : Ymd), parseDateChars s = some d → validYmd d) ∧
    parseDate "30.02.2023" = none ∧
    parseDate "29.02.2023" = none ∧
    parseDate "29.02.2024" = some ⟨2024, 2, 29⟩ ∧
    parseDate "2023-05-25extra" = none :=
  ⟨parseDateChars_sound, by decide, by decide, by decide, by decide⟩

theorem claim6_validation_witness : validYmd ⟨2023, 5, 25⟩ :=
  claim6_validation.1 "25.05.2023".data ⟨2023, 5, 25⟩ (by decide)

/-- C10: for a two-digit/two-digit/four-digit slash- or dash-separated
date whose day-first reading is calendar-invalid but whose month-first
reading is valid, `parseDate` falls through to the lower-priority US
pattern and returns the month-first interpretation instead of no-match
(e.g. `12/25/2023` is 25 December 2023); conversely, when the day-first
reading is valid the higher-priority day-first pattern returns it, so
the US patterns are reachable exactly when day-first validation
fails. -/
theorem claim10_us_fallthrough :
    (∀ c1 c2 c3 c4 y1 y2 y3 y4 : Char,
      isDigitChar c1 = true → isDigitChar c2 = true →
      isDigitChar c3 = true → isDigitChar c4 = true →
      isDigitChar y1 = true → isDigitChar y2 = true →
      isDigitChar y3 = true → isDigitChar y4 = true →
      isValidDate (fourDigitVal y1 y2 y3 y4) (twoDigitVal c3 c4) (twoDigitVal c1 c2) = false →
      isValidDate (fourDigitVal y1 y2 y3 y4) (twoDigitVal c1 c2) (twoDigitVal c3 c4) = true →
      parseDate (String.mk [c1, c2, '/', c3, c4, '/', y1, y2, y3, y4]) =
        some ⟨(fourDigitVal y1 y2 y3 y4 : Int), (twoDigitVal c1 c2 : Int),
          (twoDigitVal c3 c4 : Int)⟩ ∧
      parseDate (String.mk [c1, c2, '-', c3, c4, '-', y1, y2, y3, y4]) =
        some ⟨(fourDigitVal y1 y2 y3 y4 : Int), (twoDigitVal c1 c2 : Int),
          (twoDigitVal c3 c4 : Int)⟩) ∧
    (∀ c1 c2 c3 c4 y1 y2 y3 y4 : Char,
      isDigitChar c1 = true → isDigitChar c2 = true →
      isDigitChar c3 = true → isDigitChar c4 = true →
      isDigitChar y1 = true → isDigitChar y2 = true →
      isDigitChar y3 = true → isDigitChar y4 = true →
      isValidDate (fourDigitVal y1 y2 y3 y4) (twoDigitVal c3 c4) (twoDigitVal c1 c2) = true →
      parseDate (String.mk [c1, c2, '-', c3, c4, '-', y1, y2, y3, y4]) =
        some ⟨(fourDigitVal y1 y2 y3 y4 : Int), (twoDigitVal c3 c4 : Int),
          (twoDigitVal c1 c2 : Int)⟩) ∧
    parseDate "12/25/2023" = some ⟨2023, 12, 25⟩ ∧
    parseDate "12-25-2023" = some ⟨2023, 12, 25⟩ :=
  ⟨fun c1 c2 c3 c4 y1 y2 y3 y4 h1 h2 h3 h4 h5 h6 h7 h8 hv1 hv2 =>
    ⟨parse_slash_fallthrough c1 c2 c3 c4 y1 y2 y3 y4 h1 h2 h3 h4 h5 h6 h7 h8 hv1 hv2,
     parse_dash_fallthrough c1 c2 c3 c4 y1 y2 y3 y4 h1 h2 h3 h4 h5 h6 h7 h8 hv1 hv2⟩,
   fun c1 c2 c3 c4 y1 y2 y3 y4 h1 h2 h3 h4 h5 h6 h7 h8 hv =>
    parse_dash_dayfirst c1 c2 c3 c4 y1 y2 y3 y4 h1 h2 h3 h4 h5 h6 h7 h8 hv,
   by decide, by decide⟩

theorem claim10_us_fallthrough_witness :
    parseDate (String.mk ['1', '2', '/', '3', '0', '/', '2', '0', '2', '3']) =
      some ⟨(fourDigitVal '2' '0' '2' '3' : Int), (twoDigitVal '1' '2' : Int),
        (twoDigitVal '3' '0' : Int)⟩ :=
  (claim10_us_fallthrough.1 '1' '2' '3' '0' '2' '0' '2' '3' (by decide) (by decide)
    (by decide) (by decide) (by decide) (by decide) (by decide) (by decide)
    (by decide) (by decide)).1

/-! ## Trip-parser helper lemmas -/

/-- Every trip emitted by the line loop was built by `rowTrip`: its
`days` field is the inclusive day difference and its `notes` field is
absent. -/
theorem parseLines_shape (ls : List (List Char)) :
    ∀ (fr : Bool) (t : Trip), t ∈ parseLines ls fr →
      t.days = toRD t.«end» - toRD t.start + 1 ∧ t.notes = none := by
  induction ls with
  | nil => intro fr t h; exact absurd h (by simp [parseLines])
  | cons l ls ih =>
    intro fr t h
    rw [parseLines] at h
    cases hs : splitCells l with
    | nil => rw [hs] at h; exact ih _ _ h
    | cons a cs =>
      cases cs with
      | nil => rw [hs] at h; exact ih _ _ h
      | cons b rest =>
        rw [hs] at h
        dsimp only at h
        by_cases hh : (fr && isHeaderRow (a :: b :: rest)) = true
        · rw [if_pos hh] at h
          exact ih _ _ h
        · rw [if_neg hh] at h
          cases hr : rowTrip a b with
          | none => rw [hr] at h; exact ih _ _ h
          | some t0 =>
            rw [hr] at h
            rcases List.mem_cons.mp h with rfl | h2
            · rw [rowTrip] at hr
              cases hpa : parseDateChars a with
              | none => rw [hpa] at hr; exact absurd hr (by simp)
              | some ds =>
                cases hpb : parseDateChars b with
                | none => rw [hpa, hpb] at hr; exact absurd hr (by simp)
                | some de =>
                  rw [hpa, hpb, Option.some.injEq] at hr
                  rw [← hr]
                  exact ⟨rfl, rfl⟩
            · exact ih _ _ h2

/-- Every trip returned by `parseTripsFromText` was emitted by the line
loop (sorting only permutes). -/
theorem parseTripsFromText_shape (text : String) :
    ∀ t ∈ parseTripsFromText text,
      t.days = toRD t.«end» - toRD t.start + 1 ∧ t.notes = none := by
  intro t h
  rw [parseTripsFromText] at h
  by_cases he :
      ((splitLines text.data).filter (fun l => !(trimChars l).isEmpty)).isEmpty
  · rw [if_pos he] at h
    exact absurd h (by simp)
  · rw [if_neg he] at h
    exact parseLines_shape _ _ _ ((List.perm_insertionSort endBefore _).mem_iff.mp h)

/-- C7, corrected: every trip produced by `parseTripsFromText`
satisfies `days = (end - start in whole days) + 1`, and therefore
`days >= 1` whenever `end >= start`; but a row whose parsed end
precedes its start is not rejected, so `end >= start` (and hence
`days >= 1`) does not hold for every input text. -/
theorem claim7_days_formula :
    ∀ (text : String), ∀ t ∈ parseTripsFromText text,
      t.days = toRD t.«end» - toRD t.start + 1 ∧
      (toRD t.start ≤ toRD t.«end» → 1 ≤ t.days) := by
  intro text t h
  have hs := parseTripsFromText_shape text t h
  exact ⟨hs.1, fun hle => by omega⟩

theorem claim7_days_formula_counterexample :
    (parseTripsFromText "10.08.2023,25.05.2023").map
        (fun t => (t.start, t.«end», t.days)) =
      [(⟨2023, 8, 10⟩, ⟨2023, 5, 25⟩, -76)] ∧
    ¬ (∀ t ∈ parseTripsFromText "10.08.2023,25.05.2023",
        toRD t.start ≤ toRD t.«end» ∧ 1 ≤ t.days) := by
  constructor
  · decide
  · decide

theorem claim7_days_formula_witness :
    Trip.days ⟨⟨2023, 5, 25⟩, ⟨2023, 8, 10⟩, 78, none⟩ =
        toRD ⟨2023, 8, 10⟩ - toRD ⟨2023, 5, 25⟩ + 1 ∧
      (toRD (⟨2023, 5, 25⟩ : Ymd) ≤ toRD (⟨2023, 8, 10⟩ : Ymd) →
        1 ≤ Trip.days ⟨⟨2023, 5, 25⟩, ⟨2023, 8, 10⟩, 78, none⟩) :=
  claim7_days_formula "25.05.2023,10.08.2023"
    ⟨⟨2023, 5, 25⟩, ⟨2023, 8, 10⟩, 78, none⟩ (by decide)

/-- C9, corrected: `parseTripsFromText` ignores any third cell —
every produced trip has no notes (the Go `Trip` has no notes field at
all, and the TS parser pushes `{start, end, days}` only; notes can only
be attached through the separate table-editing UI). -/
theorem claim9_no_notes :
    ∀ (text : String), ∀ t ∈ parseTripsFromText text, t.notes = none :=
  fun text t h => (parseTripsFromText_shape text t h).2

theorem claim9_no_notes_counterexample :
    (parseTripsFromText "01.01.2023,02.01.2023,my notes").map Trip.notes = [none] ∧
    (parseTripsFromText "01.01.2023,02.01.2023,my notes").map Trip.notes ≠
      [some "my notes"] := by
  constructor
  · decide
  · decide

theorem claim9_no_notes_witness :
    Trip.notes ⟨⟨2023, 1, 1⟩, ⟨2023, 1, 2⟩, 2, none⟩ = none :=
  claim9_no_notes "01.01.2023,02.01.2023,my notes"
    ⟨⟨2023, 1, 1⟩, ⟨2023, 1, 2⟩, 2, none⟩ (by decide)

/-! ## Header-skip lemmas (for C8) -/

theorem normNewlines_append :
    ∀ (h rest : List Char), (∀ c ∈ h, c ≠ '\n' ∧ c ≠ '\r') →
      normNewlines (h ++ '\n' :: rest) = h ++ '\n' :: normNewlines rest := by
  intro h
  induction h with
  | nil =>
    intro rest _
    cases rest with
    | nil => rfl
    | cons c2 l2 =>
      rw [List.nil_append, normNewlines,
        if_neg (fun hcon => absurd hcon.1 (by decide)), List.nil_append]
  | cons c h2 ih =>
    intro rest hn
    have hc := hn c (by simp)
    have hrest : ∀ x ∈ h2, x ≠ '\n' ∧ x ≠ '\r' := fun x hx => hn x (by simp [hx])
    cases h2 with
    | nil =>
      rw [List.cons_append, List.nil_append, normNewlines,
        if_neg (fun hcon => hc.2 hcon.1)]
      rw [show normNewlines ('\n' :: rest) = [] ++ '\n' :: normNewlines rest from
        ih rest (by simp)]
      simp
    | cons c2 h3 =>
      rw [List.cons_append, List.cons_append, normNewlines,
        if_neg (fun hcon => hc.2 hcon.1), ← List.cons_append,
        ih rest hrest]
      simp

theorem splitOnNl_append :
    ∀ (h rest acc : List Char), '\n' ∉ h →
      splitOnNl acc (h ++ '\n' :: rest) = (acc.reverse ++ h) :: splitOnNl [] rest := by
  intro h
  induction h with
  | nil =>
    intro rest acc _
    rw [List.nil_append, splitOnNl, if_pos rfl, List.append_nil]
  | cons c h2 ih =>
    intro rest acc hn
    simp only [List.mem_cons, not_or] at hn
    rw [List.cons_append, splitOnNl, if_neg (fun hc => hn.1 hc.symm),
      ih rest (c :: acc) hn.2]
    simp

/-- Prepending a newline-free line to a text prepends it to the line
split. -/
theorem splitLines_append (h rest : List Char)
    (hn : ∀ c ∈ h, c ≠ '\n' ∧ c ≠ '\r') :
    splitLines (h ++ '\n' :: rest) = h :: splitLines rest := by
  rw [splitLines, normNewlines_append h _ hn,
    splitOnNl_append h _ [] (fun hmem => (hn _ hmem).1 rfl)]
  rfl

/-- The line loop drops a detected header line, continuing with the
flag cleared. -/
theorem parseLines_header (l : List Char) (ls : List (List Char))
    (hcells : 2 ≤ (splitCells l).length) (hhdr : isHeaderRow (splitCells l) = true) :
    parseLines (l :: ls) true = parseLines ls false := by
  rw [parseLines]
  cases hs : splitCells l with
  | nil => rw [hs] at hcells; exact absurd hcells (by simp)
  | cons a cs =>
    cases cs with
    | nil => rw [hs] at hcells; exact absurd hcells (by simp)
    | cons b rest =>
      rw [hs] at hhdr
      dsimp only
      rw [if_pos (by rw [hhdr]; rfl)]

/-- If the first ≥2-cell line would not be detected as a header, the
`firstRow` flag is irrelevant. -/
theorem parseLines_flag :
    ∀ (ls : List (List Char)), wouldSkipHeader ls = false →
      parseLines ls true = parseLines ls false := by
  intro ls
  induction ls with
  | nil => intro _; rfl
  | cons l ls ih =>
    intro hns
    rw [wouldSkipHeader] at hns
    rw [parseLines, parseLines]
    cases hs : splitCells l with
    | nil =>
      rw [hs] at hns
      dsimp only
      exact ih hns
    | cons a cs =>
      cases cs with
      | nil =>
        rw [hs] at hns
        dsimp only
        exact ih hns
      | cons b rest =>
        rw [hs] at hns
        dsimp only at hns ⊢
        rw [hns]
        rfl

/-- C8, corrected: if the first non-blank ≥2-cell line of a text is
detected as a header row, parsing the text and parsing the text with
that header line removed yield identical trip lists — PROVIDED the
first ≥2-cell line of the remaining text would not itself be detected
as a header (`wouldSkipHeader = false`).  Without that proviso the
claim is false: see the counterexample, where the second line
`"05 October 2023,..."` is itself header-detected (the keyword `"to"`
occurs inside `"october"`) once it becomes the first line. -/
theorem claim8_header_idempotent :
    ∀ (h rest : List Char),
      (∀ c ∈ h, c ≠ '\n' ∧ c ≠ '\r') →
      (trimChars h).isEmpty = false →
      2 ≤ (splitCells h).length →
      isHeaderRow (splitCells h) = true →
      wouldSkipHeader ((splitLines rest).filter (fun l => !(trimChars l).isEmpty)) = false →
      parseTripsFromText (String.mk (h ++ '\n' :: rest)) =
        parseTripsFromText (String.mk rest) := by
  intro h rest hchars hblank hcells hhdr hskip
  simp only [parseTripsFromText]
  rw [splitLines_append h rest hchars]
  simp only [List.filter_cons, hblank, Bool.not_false, if_true, List.isEmpty_cons,
    Bool.false_eq_true, if_false]
  rw [parseLines_header h _ hcells hhdr, ← parseLines_flag _ hskip]
  cases hL : (splitLines rest).filter (fun l => !(trimChars l).isEmpty) with
  | nil => rfl
  | cons x xs => rfl

theorem claim8_header_idempotent_counterexample :
    parseTripsFromText "Start,End\n05 October 2023,06 October 2023" ≠
      parseTripsFromText "05 October 2023,06 October 2023" := by decide

theorem claim8_header_idempotent_witness :
    parseTripsFromText (String.mk ("Start,End".data ++ '\n' :: "25.05.2023,26.05.2023".data)) =
      parseTripsFromText (String.mk "25.05.2023,26.05.2023".data) :=
  claim8_header_idempotent "Start,End".data "25.05.2023,26.05.2023".data
    (by decide) (by decide) (by decide) (by decide) (by decide)

end StayWithin
